import Mathlib

set_option maxRecDepth 4000

/-!
Verification development for the miniml parser in `src/parser.rs`.

The source is a nom-based recursive-descent parser over `&str`; input text
is modelled here as `List Char`.  Every parsing rule of the source file is
translated one-to-one.  The mutual recursion of the rules all flows through
`parse_e_top`, so each rule that recursively parses a sub-expression is
written in open-recursion style (`parse_pred_f`, ..., taking the
sub-expression parser `top` as an argument) and the knot is tied in
`parse_e_top` with an explicit fuel parameter that counts the nesting depth
of `parse_e_top` invocations.  The result `PRes.fuel` marks fuel
exhaustion: the Rust original has no such bound, so a call whose result is
`PRes.fuel` for every fuel amount is a call that never returns (unbounded
recursion / stack overflow) in the original.
-/

/-- Result of a nom parser of value type `α` over the remaining input:
`ok v rem` models `Ok((rem, v))`, `err` models `Err(nom::Err::Error(_))`
(the only error variant this source can produce), and `fuel` marks
exhaustion of the modelling fuel. -/
inductive PRes (α : Type) : Type where
  | ok : α → List Char → PRes α
  | err : PRes α
  | fuel : PRes α
deriving DecidableEq, Repr

/-- A parser in the sense of the source file: `fn(&str) -> IResult<&str, α>`. -/
def P (α : Type) : Type := List Char → PRes α

/-- Sequencing; models the `?` operator on an `IResult` in the source. -/
def pbind {α β : Type} (r : PRes α) (f : α → List Char → PRes β) : PRes β :=
  match r with
  | .ok a rem => f a rem
  | .err => .err
  | .fuel => .fuel

/-- nom `alt` restricted to two alternatives: on a recoverable error the
second alternative is run on the unchanged input; `ok` and `fuel` pass
through.  The source's `alt((p1, ..., pk))` tuples are embedded as
right-nested `por` chains, preserving the try order. -/
def por {α : Type} (p q : P α) : P α := fun input =>
  match p input with
  | .err => q input
  | r => r

/-- nom `value(v, p)`. -/
def pvalue {α β : Type} (v : α) (p : P β) : P α := fun input =>
  pbind (p input) (fun _ rem => .ok v rem)

/-- nom `tag(t)`: match the literal token `t` at the head of the input. -/
def tag (t : List Char) : P (List Char) := fun input =>
  if t.isPrefixOf input then .ok t (input.drop t.length) else .err

/-- nom `alpha1`: a maximal nonempty run of ASCII letters
(`char::is_ascii_alphabetic`, which is what nom's `AsChar::is_alpha`
uses for `char`; `Char.isAlpha` is the same ASCII predicate). -/
def alpha1 : P (List Char) := fun input =>
  if input.takeWhile Char.isAlpha = [] then .err
  else .ok (input.takeWhile Char.isAlpha) (input.dropWhile Char.isAlpha)

/-- nom `alphanumeric1`: a maximal nonempty run of ASCII letters or digits. -/
def alphanumeric1 : P (List Char) := fun input =>
  if input.takeWhile Char.isAlphanum = [] then .err
  else .ok (input.takeWhile Char.isAlphanum) (input.dropWhile Char.isAlphanum)

/-- nom `digit1`: a maximal nonempty run of ASCII decimal digits. -/
def digit1 : P (List Char) := fun input =>
  if input.takeWhile Char.isDigit = [] then .err
  else .ok (input.takeWhile Char.isDigit) (input.dropWhile Char.isDigit)

/-- nom `recognize(p)`: run `p` and return the slice of input it consumed
(the slice is recovered from the offsets, i.e. from the lengths). -/
def precognize {α : Type} (p : P α) : P (List Char) := fun input =>
  match p input with
  | .ok _ rem => .ok (input.take (input.length - rem.length)) rem
  | .err => .err
  | .fuel => .fuel

/-- nom `many0_count(p)`, with the running count as an accumulator: apply
`p` repeatedly until it errors; like nom, fail if an iteration consumes no
input (nom compares the two slices, which for a suffix is a length check).
The first argument bounds the number of iterations so the recursion is
structural; callers pass `input.length + 1`, which can never be reached
because every continuing iteration consumes at least one character
(`many0c_ok` below proves the bound is never exhausted). -/
def many0c {α : Type} (p : P α) : Nat → List Char → Nat → PRes Nat
  | 0, _, _ => .fuel
  | f + 1, input, acc =>
      match p input with
      | .ok _ rem =>
          if rem.length < input.length then many0c p f rem (acc + 1) else .err
      | .err => .ok acc input
      | .fuel => .fuel

/-- The identifier representation, `struct Variable { ident: String }`. -/
structure Variable : Type where
  ident : List Char
deriving DecidableEq, Repr

mutual

/-- The AST, `enum Expression` of the source.  `Num` holds the source's
`i32` as a mathematical integer (no arithmetic is performed on it). -/
inductive Expression : Type where
  | True : Expression
  | False : Expression
  | Num : Int → Expression
  | Var : Variable → Expression
  | Nil : Expression
  | Let : Definition → Expression → Expression
  | Not : Expression → Expression
  | If : Expression → Expression → Expression → Expression
  | Succ : Expression → Expression
  | Pred : Expression → Expression
  | Fst : Expression → Expression
  | Snd : Expression → Expression
  | Hd : Expression → Expression
  | Tl : Expression → Expression
  | Pair : Expression → Expression → Expression
  | Fn : Variable → Expression → Expression
  | Eq : Expression → Expression → Expression
  | Cons : Expression → Expression → Expression
  | And : Expression → Expression → Expression
  | Add : Expression → Expression → Expression
  | Apply : Expression → Expression → Expression
deriving DecidableEq, Repr

/-- The let binding, `struct Definition { name: Variable, value: Expression }`. -/
inductive Definition : Type where
  | mk : Variable → Expression → Definition
deriving DecidableEq, Repr

end

/-- Inner combinator of `parse_variable`:
`many0_count(alt((alphanumeric1, tag("_"))))`. -/
def identTail : P Nat := fun input =>
  many0c (por alphanumeric1 (tag ['_'])) (input.length + 1) input 0

/-- Inner combinator of `parse_variable`:
`pair(alt((alpha1, tag("_"))), many0_count(alt((alphanumeric1, tag("_")))))`,
with the pair of values collapsed (only the count survives; `recognize`
discards it anyway). -/
def identPair : P Nat := fun input =>
  pbind (por alpha1 (tag ['_']) input) (fun _ rem => identTail rem)

/-- Source `parse_variable`:
`recognize(pair(alt((alpha1, tag("_"))), many0_count(alt((alphanumeric1, tag("_"))))))`,
wrapping the recognized slice in a `Variable`. -/
def parse_variable : P Variable := fun input =>
  pbind (precognize identPair input) (fun s rem => .ok ⟨s⟩ rem)

/-- Source `parse_e_variable`. -/
def parse_e_variable : P Expression := fun input =>
  pbind (parse_variable input) (fun v rem => .ok (Expression.Var v) rem)

/-- Source `parse_bool`:
`alt((value(True, tag("true")), value(False, tag("false"))))`. -/
def parse_bool : P Expression :=
  por (pvalue Expression.True (tag ['t','r','u','e']))
      (pvalue Expression.False (tag ['f','a','l','s','e']))

/-- Decimal value of a digit run. -/
def digitsVal (l : List Char) : Nat :=
  l.foldl (fun a c => 10 * a + (c.toNat - 48)) 0

/-- Modelled from the spec: the source body of `parse_num` is
`digit1(input)`, which returns the raw digit slice where an `Expression`
is required and therefore does not type-check; the spec's numeral-parsing
sentence ("a maximal run of decimal digits is captured and converted to a
signed integer") is used for the value instead: the maximal digit run is
captured by `digit1` and its decimal value wrapped in `Num`. -/
def parse_num : P Expression := fun input =>
  pbind (digit1 input) (fun ds rem => .ok (Expression.Num (Int.ofNat (digitsVal ds))) rem)

/-- Source `parse_nil`. -/
def parse_nil : P Expression := pvalue Expression.Nil (tag ['n','i','l'])

/-- Source `parse_def`; `top` stands for the call to `parse_e_top`. -/
def parse_def_f (top : P Expression) : P Definition := fun input =>
  pbind (parse_variable input) (fun var r1 =>
  pbind (tag ['='] r1) (fun _ r2 =>
  pbind (top r2) (fun e r3 => .ok (Definition.mk var e) r3)))

/-- Source `parse_let`. -/
def parse_let_f (top : P Expression) : P Expression := fun input =>
  pbind (tag ['l','e','t'] input) (fun _ r1 =>
  pbind (parse_def_f top r1) (fun d r2 =>
  pbind (tag ['i','n'] r2) (fun _ r3 =>
  pbind (top r3) (fun e r4 => .ok (Expression.Let d e) r4))))

/-- Source `parse_not`. -/
def parse_not_f (top : P Expression) : P Expression := fun input =>
  pbind (tag ['n','o','t'] input) (fun _ r1 =>
  pbind (tag ['('] r1) (fun _ r2 =>
  pbind (top r2) (fun e r3 =>
  pbind (tag [')'] r3) (fun _ r4 => .ok (Expression.Not e) r4))))

/-- Source `parse_if`. -/
def parse_if_f (top : P Expression) : P Expression := fun input =>
  pbind (tag ['i','f'] input) (fun _ r1 =>
  pbind (top r1) (fun cond r2 =>
  pbind (tag ['t','h','e','n'] r2) (fun _ r3 =>
  pbind (top r3) (fun et r4 =>
  pbind (tag ['e','l','s','e'] r4) (fun _ r5 =>
  pbind (top r5) (fun ef r6 => .ok (Expression.If cond et ef) r6))))))

/-- Source `parse_succ`. -/
def parse_succ_f (top : P Expression) : P Expression := fun input =>
  pbind (tag ['s','u','c','c'] input) (fun _ r1 =>
  pbind (tag ['('] r1) (fun _ r2 =>
  pbind (top r2) (fun e r3 =>
  pbind (tag [')'] r3) (fun _ r4 => .ok (Expression.Succ e) r4))))

/-- Source `parse_pair`: note the asymmetric delimiters of the source,
`<` then `,` then `)`. -/
def parse_pair_f (top : P Expression) : P Expression := fun input =>
  pbind (tag ['<'] input) (fun _ r1 =>
  pbind (top r1) (fun e1 r2 =>
  pbind (tag [','] r2) (fun _ r3 =>
  pbind (top r3) (fun e2 r4 =>
  pbind (tag [')'] r4) (fun _ r5 => .ok (Expression.Pair e1 e2) r5)))))

/-- Source `parse_fst`. -/
def parse_fst_f (top : P Expression) : P Expression := fun input =>
  pbind (tag ['f','s','t'] input) (fun _ r1 =>
  pbind (tag ['('] r1) (fun _ r2 =>
  pbind (top r2) (fun e r3 =>
  pbind (tag [')'] r3) (fun _ r4 => .ok (Expression.Fst e) r4))))

/-- Source `parse_snd`. -/
def parse_snd_f (top : P Expression) : P Expression := fun input =>
  pbind (tag ['s','n','d'] input) (fun _ r1 =>
  pbind (tag ['('] r1) (fun _ r2 =>
  pbind (top r2) (fun e r3 =>
  pbind (tag [')'] r3) (fun _ r4 => .ok (Expression.Snd e) r4))))

/-- Source `parse_hd`. -/
def parse_hd_f (top : P Expression) : P Expression := fun input =>
  pbind (tag ['h','d'] input) (fun _ r1 =>
  pbind (tag ['('] r1) (fun _ r2 =>
  pbind (top r2) (fun e r3 =>
  pbind (tag [')'] r3) (fun _ r4 => .ok (Expression.Hd e) r4))))

/-- Source `parse_tl`. -/
def parse_tl_f (top : P Expression) : P Expression := fun input =>
  pbind (tag ['t','l'] input) (fun _ r1 =>
  pbind (tag ['('] r1) (fun _ r2 =>
  pbind (top r2) (fun e r3 =>
  pbind (tag [')'] r3) (fun _ r4 => .ok (Expression.Tl e) r4))))

/-- Source `parse_pred`, as written: line 177 of the source wraps the
sub-expression in `Expression::Succ`, not `Expression::Pred`. -/
def parse_pred_f (top : P Expression) : P Expression := fun input =>
  pbind (tag ['p','r','e','d'] input) (fun _ r1 =>
  pbind (tag ['('] r1) (fun _ r2 =>
  pbind (top r2) (fun e r3 =>
  pbind (tag [')'] r3) (fun _ r4 => .ok (Expression.Succ e) r4))))

/-- Source `parse_e_null`: the `alt` over the fourteen atomic alternatives,
in source order (variable first, then bool, num, let, not, if, succ, pair,
fst, snd, nil, hd, tl, pred). -/
def parse_e_null_f (top : P Expression) : P Expression :=
  por parse_e_variable
    (por parse_bool
      (por parse_num
        (por (parse_let_f top)
          (por (parse_not_f top)
            (por (parse_if_f top)
              (por (parse_succ_f top)
                (por (parse_pair_f top)
                  (por (parse_fst_f top)
                    (por (parse_snd_f top)
                      (por parse_nil
                        (por (parse_hd_f top)
                          (por (parse_tl_f top)
                            (parse_pred_f top)))))))))))))

/-- Source `parse_fn`. -/
def parse_fn_f (top : P Expression) : P Expression := fun input =>
  pbind (tag ['f','n'] input) (fun _ r1 =>
  pbind (parse_variable r1) (fun v r2 =>
  pbind (tag ['.'] r2) (fun _ r3 =>
  pbind (top r3) (fun e r4 => .ok (Expression.Fn v e) r4))))

/-- Source `parse_e_fifth`. -/
def parse_e_fifth_f (top : P Expression) : P Expression :=
  por (parse_fn_f top) (parse_e_null_f top)

/-- Source `parse_eq`: the left operand is parsed by the full top rule. -/
def parse_eq_f (top : P Expression) : P Expression := fun input =>
  pbind (top input) (fun e1 r1 =>
  pbind (tag ['=','='] r1) (fun _ r2 =>
  pbind (top r2) (fun e2 r3 => .ok (Expression.Eq e1 e2) r3)))

/-- Source `parse_e_fourth`. -/
def parse_e_fourth_f (top : P Expression) : P Expression :=
  por (parse_eq_f top) (parse_e_fifth_f top)

/-- Source `parse_cons`. -/
def parse_cons_f (top : P Expression) : P Expression := fun input =>
  pbind (top input) (fun e1 r1 =>
  pbind (tag [':',':'] r1) (fun _ r2 =>
  pbind (top r2) (fun e2 r3 => .ok (Expression.Cons e1 e2) r3)))

/-- Source `parse_e_third`. -/
def parse_e_third_f (top : P Expression) : P Expression :=
  por (parse_cons_f top) (parse_e_fourth_f top)

/-- Source `parse_and`. -/
def parse_and_f (top : P Expression) : P Expression := fun input =>
  pbind (top input) (fun e1 r1 =>
  pbind (tag ['a','n','d'] r1) (fun _ r2 =>
  pbind (top r2) (fun e2 r3 => .ok (Expression.And e1 e2) r3)))

/-- Source `parse_e_second`. -/
def parse_e_second_f (top : P Expression) : P Expression :=
  por (parse_and_f top) (parse_e_third_f top)

/-- Source `parse_add`. -/
def parse_add_f (top : P Expression) : P Expression := fun input =>
  pbind (top input) (fun e1 r1 =>
  pbind (tag ['+'] r1) (fun _ r2 =>
  pbind (top r2) (fun e2 r3 => .ok (Expression.Add e1 e2) r3)))

/-- Source `parse_e_first`. -/
def parse_e_first_f (top : P Expression) : P Expression :=
  por (parse_add_f top) (parse_e_second_f top)

/-- Source `parse_apply_1`: `E1 ( E2 )` producing `Apply(E1, E2)`; the
left operand is parsed by the full top rule. -/
def parse_apply_1_f (top : P Expression) : P Expression := fun input =>
  pbind (top input) (fun e1 r1 =>
  pbind (tag ['('] r1) (fun _ r2 =>
  pbind (top r2) (fun e2 r3 =>
  pbind (tag [')'] r3) (fun _ r4 => .ok (Expression.Apply e1 e2) r4))))

/-- Source `parse_apply_2`: juxtaposition `E1 E2` producing `Apply(E1, E2)`. -/
def parse_apply_2_f (top : P Expression) : P Expression := fun input =>
  pbind (top input) (fun e1 r1 =>
  pbind (top r1) (fun e2 r2 => .ok (Expression.Apply e1 e2) r2))

/-- Source `parse_e_zeroth`: `alt((parse_apply_1, parse_apply_2, parse_e_first))`. -/
def parse_e_zeroth_f (top : P Expression) : P Expression :=
  por (parse_apply_1_f top) (por (parse_apply_2_f top) (parse_e_first_f top))

/-- Source `parse_e_top_bracket`. -/
def parse_e_top_bracket_f (top : P Expression) : P Expression := fun input =>
  pbind (tag ['('] input) (fun _ r1 =>
  pbind (top r1) (fun e r2 =>
  pbind (tag [')'] r2) (fun _ r3 => .ok e r3)))

/-- Source `parse_e_top`: `alt((parse_e_top_bracket, parse_e_zeroth))`,
with the recursion made explicit through the fuel parameter (the Rust
function just recurses with no bound). -/
def parse_e_top : Nat → P Expression
  | 0 => fun _ => .fuel
  | n + 1 =>
      por (parse_e_top_bracket_f (parse_e_top n)) (parse_e_zeroth_f (parse_e_top n))

/-- Source `parser`, the entry point: it simply calls `parse_e_top`. -/
def parser (n : Nat) : P Expression := parse_e_top n

/-- Fueled instance of source `parse_def`. -/
def parse_def (n : Nat) : P Definition := parse_def_f (parse_e_top n)

/-- Fueled instance of source `parse_let`. -/
def parse_let (n : Nat) : P Expression := parse_let_f (parse_e_top n)

/-- Fueled instance of source `parse_not`. -/
def parse_not (n : Nat) : P Expression := parse_not_f (parse_e_top n)

/-- Fueled instance of source `parse_if`. -/
def parse_if (n : Nat) : P Expression := parse_if_f (parse_e_top n)

/-- Fueled instance of source `parse_succ`. -/
def parse_succ (n : Nat) : P Expression := parse_succ_f (parse_e_top n)

/-- Fueled instance of source `parse_pair`. -/
def parse_pair (n : Nat) : P Expression := parse_pair_f (parse_e_top n)

/-- Fueled instance of source `parse_fst`. -/
def parse_fst (n : Nat) : P Expression := parse_fst_f (parse_e_top n)

/-- Fueled instance of source `parse_snd`. -/
def parse_snd (n : Nat) : P Expression := parse_snd_f (parse_e_top n)

/-- Fueled instance of source `parse_hd`. -/
def parse_hd (n : Nat) : P Expression := parse_hd_f (parse_e_top n)

/-- Fueled instance of source `parse_tl`. -/
def parse_tl (n : Nat) : P Expression := parse_tl_f (parse_e_top n)

/-- Fueled instance of source `parse_pred`. -/
def parse_pred (n : Nat) : P Expression := parse_pred_f (parse_e_top n)

/-- Fueled instance of source `parse_e_null`. -/
def parse_e_null (n : Nat) : P Expression := parse_e_null_f (parse_e_top n)

/-- Fueled instance of source `parse_fn`. -/
def parse_fn (n : Nat) : P Expression := parse_fn_f (parse_e_top n)

/-- Fueled instance of source `parse_e_fifth`. -/
def parse_e_fifth (n : Nat) : P Expression := parse_e_fifth_f (parse_e_top n)

/-- Fueled instance of source `parse_eq`. -/
def parse_eq (n : Nat) : P Expression := parse_eq_f (parse_e_top n)

/-- Fueled instance of source `parse_e_fourth`. -/
def parse_e_fourth (n : Nat) : P Expression := parse_e_fourth_f (parse_e_top n)

/-- Fueled instance of source `parse_cons`. -/
def parse_cons (n : Nat) : P Expression := parse_cons_f (parse_e_top n)

/-- Fueled instance of source `parse_e_third`. -/
def parse_e_third (n : Nat) : P Expression := parse_e_third_f (parse_e_top n)

/-- Fueled instance of source `parse_and`. -/
def parse_and (n : Nat) : P Expression := parse_and_f (parse_e_top n)

/-- Fueled instance of source `parse_e_second`. -/
def parse_e_second (n : Nat) : P Expression := parse_e_second_f (parse_e_top n)

/-- Fueled instance of source `parse_add`. -/
def parse_add (n : Nat) : P Expression := parse_add_f (parse_e_top n)

/-- Fueled instance of source `parse_e_first`. -/
def parse_e_first (n : Nat) : P Expression := parse_e_first_f (parse_e_top n)

/-- Fueled instance of source `parse_apply_1`. -/
def parse_apply_1 (n : Nat) : P Expression := parse_apply_1_f (parse_e_top n)

/-- Fueled instance of source `parse_apply_2`. -/
def parse_apply_2 (n : Nat) : P Expression := parse_apply_2_f (parse_e_top n)

/-- Fueled instance of source `parse_e_zeroth`. -/
def parse_e_zeroth (n : Nat) : P Expression := parse_e_zeroth_f (parse_e_top n)

/-- Fueled instance of source `parse_e_top_bracket`. -/
def parse_e_top_bracket (n : Nat) : P Expression := parse_e_top_bracket_f (parse_e_top n)

/-- Spec regex class for the first identifier character: `[A-Za-z_]`. -/
def identStart (c : Char) : Bool := c.isAlpha || c == '_'

/-- Spec regex class for subsequent identifier characters: `[A-Za-z0-9_]`. -/
def identChar (c : Char) : Bool := c.isAlphanum || c == '_'

/-- Computation rule for `pbind` on a success. -/
@[simp] theorem pbind_ok {α β : Type} (a : α) (rem : List Char) (f : α → List Char → PRes β) :
    pbind (.ok a rem) f = f a rem := rfl

/-- Computation rule for `pbind` on an error. -/
@[simp] theorem pbind_err {α β : Type} (f : α → List Char → PRes β) :
    pbind .err f = .err := rfl

/-- Computation rule for `pbind` on fuel exhaustion. -/
@[simp] theorem pbind_fuel {α β : Type} (f : α → List Char → PRes β) :
    pbind .fuel f = .fuel := rfl

/-- If the first alternative succeeds, `por` returns its result. -/
theorem por_ok {α : Type} {p q : P α} {input : List Char} {a : α} {rem : List Char}
    (h : p input = .ok a rem) : por p q input = .ok a rem := by
  unfold por
  rw [h]

/-- If the first alternative fails, `por` runs the second alternative on the
unchanged original input. -/
theorem por_err {α : Type} {p q : P α} {input : List Char}
    (h : p input = .err) : por p q input = q input := by
  unfold por
  rw [h]

/-- If the first alternative exhausts the fuel (never returns in the
original), the whole alternation does. -/
theorem por_fuel {α : Type} {p q : P α} {input : List Char}
    (h : p input = .fuel) : por p q input = .fuel := by
  unfold por
  rw [h]

/-- A `tag` match never consumes fuel. -/
theorem tag_not_fuel (t input : List Char) : tag t input ≠ .fuel := by
  unfold tag
  split <;> simp

/-- Divergence of the source parser: `parse_e_top` on any input exhausts any
amount of fuel, i.e. the Rust `parse_e_top` never returns.  On input not
starting with `(` , `parse_e_top` falls through to `parse_e_zeroth`, whose
first alternative `parse_apply_1` re-enters `parse_e_top` at the same
position; on input starting with `(` , the bracket rule recurses into
`parse_e_top` on the shorter suffix, which diverges by the same argument. -/
theorem parse_e_top_fuel : ∀ (n : Nat) (input : List Char), parse_e_top n input = .fuel := by
  intro n
  induction n with
  | zero => intro _; rfl
  | succ n ih =>
    intro input
    have happ : parse_apply_1_f (parse_e_top n) input = .fuel := by
      show pbind (parse_e_top n input) _ = .fuel
      rw [ih input]
      rfl
    have hz : parse_e_zeroth_f (parse_e_top n) input = .fuel := por_fuel happ
    show por (parse_e_top_bracket_f (parse_e_top n)) (parse_e_zeroth_f (parse_e_top n)) input = .fuel
    cases htag : tag ['('] input with
    | ok v r =>
      have hb : parse_e_top_bracket_f (parse_e_top n) input = .fuel := by
        show pbind (tag ['('] input) _ = .fuel
        rw [htag]
        show pbind (parse_e_top n r) _ = .fuel
        rw [ih r]
        rfl
      exact por_fuel hb
    | err =>
      have hb : parse_e_top_bracket_f (parse_e_top n) input = .err := by
        show pbind (tag ['('] input) _ = .err
        rw [htag]
        rfl
      rw [por_err hb]
      exact hz
    | fuel => exact absurd htag (tag_not_fuel _ _)

/-- One-step unfolding of `many0c` when the iteration bound is positive. -/
theorem many0c_step {α : Type} (p : P α) (f : Nat) (input : List Char) (acc : Nat) :
    many0c p (f + 1) input acc =
      match p input with
      | .ok _ rem => if rem.length < input.length then many0c p f rem (acc + 1) else .err
      | .err => .ok acc input
      | .fuel => .fuel := rfl

/-- An ASCII letter is an identifier character. -/
theorem alpha_identChar {c : Char} (h : c.isAlpha = true) : identChar c = true := by
  simp [identChar, Char.isAlphanum, h]

/-- An ASCII letter or digit is an identifier character. -/
theorem alnum_identChar {c : Char} (h : c.isAlphanum = true) : identChar c = true := by
  simp [identChar, h]

/-- Dropping a run of `p`-characters first does not change the result of
dropping the (weaker) `q`-run. -/
theorem dropWhile_of_imp {p q : Char → Bool} (hpq : ∀ c, p c = true → q c = true) :
    ∀ l : List Char, l.dropWhile q = (l.dropWhile p).dropWhile q := by
  intro l
  induction l with
  | nil => rfl
  | cons c cs ih =>
    by_cases hp : p c = true
    · rw [List.dropWhile_cons_of_pos (hpq c hp), List.dropWhile_cons_of_pos hp]
      exact ih
    · rw [List.dropWhile_cons_of_neg hp]

/-- The `many0_count(alt((alphanumeric1, tag("_"))))` loop of
`parse_variable` always succeeds and consumes exactly the maximal run of
identifier characters, provided the iteration bound exceeds the input
length (each continuing iteration consumes at least one character). -/
theorem many0c_ok : ∀ (f : Nat) (input : List Char), input.length < f → ∀ acc : Nat,
    ∃ k, many0c (por alphanumeric1 (tag ['_'])) f input acc =
      .ok k (input.dropWhile identChar) := by
  intro f
  induction f with
  | zero => intro input h acc; exact absurd h (Nat.not_lt_zero _)
  | succ f ih =>
    intro input hlen acc
    cases input with
    | nil => exact ⟨acc, rfl⟩
    | cons c cs =>
      have hl2 : cs.length + 1 < f + 1 := by simpa using hlen
      by_cases halnum : c.isAlphanum = true
      · have htw : (c :: cs).takeWhile Char.isAlphanum = c :: cs.takeWhile Char.isAlphanum :=
          List.takeWhile_cons_of_pos halnum
        have hdw : (c :: cs).dropWhile Char.isAlphanum = cs.dropWhile Char.isAlphanum :=
          List.dropWhile_cons_of_pos halnum
        have hne : (c :: cs).takeWhile Char.isAlphanum ≠ [] := by
          rw [htw]; exact List.cons_ne_nil _ _
        have h1 : alphanumeric1 (c :: cs) =
            .ok ((c :: cs).takeWhile Char.isAlphanum) ((c :: cs).dropWhile Char.isAlphanum) := by
          unfold alphanumeric1; rw [if_neg hne]
        have halt : por alphanumeric1 (tag ['_']) (c :: cs) =
            .ok ((c :: cs).takeWhile Char.isAlphanum) ((c :: cs).dropWhile Char.isAlphanum) :=
          por_ok h1
        have hdwle : ((c :: cs).dropWhile Char.isAlphanum).length ≤ cs.length := by
          rw [hdw]; exact (List.dropWhile_sublist _).length_le
        have hltlen : ((c :: cs).dropWhile Char.isAlphanum).length < (c :: cs).length := by
          simp only [List.length_cons]; omega
        obtain ⟨k, hk⟩ := ih ((c :: cs).dropWhile Char.isAlphanum) (by omega) (acc + 1)
        refine ⟨k, ?_⟩
        rw [many0c_step, halt]
        simp only [if_pos hltlen]
        rw [hk, dropWhile_of_imp (fun x hx => alnum_identChar hx) (c :: cs)]
      · by_cases hund : c = '_'
        · subst hund
          have h1 : alphanumeric1 ('_' :: cs) = .err := by
            unfold alphanumeric1
            rw [if_pos (List.takeWhile_cons_of_neg (by decide))]
          have h2 : tag ['_'] ('_' :: cs) = .ok ['_'] cs := by
            unfold tag
            rw [if_pos (by simp [List.isPrefixOf])]
            rfl
          have halt : por alphanumeric1 (tag ['_']) ('_' :: cs) = .ok ['_'] cs :=
            (por_err h1).trans h2
          obtain ⟨k, hk⟩ := ih cs (by omega) (acc + 1)
          refine ⟨k, ?_⟩
          rw [many0c_step, halt]
          simp only [if_pos (by simp [List.length_cons] : cs.length < ('_' :: cs).length)]
          rw [hk, List.dropWhile_cons_of_pos (by decide : identChar '_' = true)]
        · have hic : identChar c = false := by
            simp only [identChar, Bool.or_eq_false_iff]
            constructor
            · revert halnum; cases c.isAlphanum <;> simp
            · simpa using hund
          have h1 : alphanumeric1 (c :: cs) = .err := by
            unfold alphanumeric1
            rw [if_pos (List.takeWhile_cons_of_neg halnum)]
          have h2 : tag ['_'] (c :: cs) = .err := by
            unfold tag
            rw [if_neg]
            intro hpre
            simp only [List.isPrefixOf, Bool.and_eq_true, beq_iff_eq] at hpre
            exact hund hpre.1.symm
          have halt : por alphanumeric1 (tag ['_']) (c :: cs) = .err :=
            (por_err h1).trans h2
          refine ⟨acc, ?_⟩
          rw [many0c_step, halt]
          rw [List.dropWhile_cons_of_neg (by simp [hic])]

/-- The identifier tail loop consumes exactly the maximal identifier-character run. -/
theorem identTail_ok (input : List Char) :
    ∃ k, identTail input = .ok k (input.dropWhile identChar) :=
  many0c_ok (input.length + 1) input (Nat.lt_succ_self _) 0

/-- On input whose first character is a letter or underscore, the
`pair(alt((alpha1, tag("_"))), many0_count(...))` combinator of
`parse_variable` succeeds and leaves exactly the maximal
identifier-character run consumed. -/
theorem identPair_ok {c : Char} (cs : List Char) (h : identStart c = true) :
    ∃ k, identPair (c :: cs) = .ok k ((c :: cs).dropWhile identChar) := by
  unfold identStart at h
  rw [Bool.or_eq_true] at h
  cases h with
  | inl ha =>
    have htw : (c :: cs).takeWhile Char.isAlpha = c :: cs.takeWhile Char.isAlpha :=
      List.takeWhile_cons_of_pos ha
    have hne : (c :: cs).takeWhile Char.isAlpha ≠ [] := by
      rw [htw]; exact List.cons_ne_nil _ _
    have h1 : alpha1 (c :: cs) =
        .ok ((c :: cs).takeWhile Char.isAlpha) ((c :: cs).dropWhile Char.isAlpha) := by
      unfold alpha1; rw [if_neg hne]
    obtain ⟨k, hk⟩ := identTail_ok ((c :: cs).dropWhile Char.isAlpha)
    refine ⟨k, ?_⟩
    show pbind (por alpha1 (tag ['_']) (c :: cs)) _ = _
    rw [por_ok h1]
    simp only [pbind_ok]
    rw [hk, dropWhile_of_imp (fun x hx => alpha_identChar hx) (c :: cs)]
  | inr hu =>
    have hc : c = '_' := eq_of_beq hu
    subst hc
    have h1 : alpha1 ('_' :: cs) = .err := by
      unfold alpha1
      rw [if_pos (List.takeWhile_cons_of_neg (by decide))]
    have h2 : tag ['_'] ('_' :: cs) = .ok ['_'] cs := by
      unfold tag
      rw [if_pos (by simp [List.isPrefixOf])]
      rfl
    obtain ⟨k, hk⟩ := identTail_ok cs
    refine ⟨k, ?_⟩
    show pbind (por alpha1 (tag ['_']) ('_' :: cs)) _ = _
    rw [(por_err h1).trans h2]
    simp only [pbind_ok]
    rw [hk, List.dropWhile_cons_of_pos (by decide : identChar '_' = true)]

/-- On input whose first character is neither a letter nor an underscore,
the inner combinator of `parse_variable` fails without consuming input. -/
theorem identPair_err {c : Char} (cs : List Char) (h : identStart c = false) :
    identPair (c :: cs) = .err := by
  unfold identStart at h
  rw [Bool.or_eq_false_iff] at h
  obtain ⟨ha, hu⟩ := h
  have h1 : alpha1 (c :: cs) = .err := by
    unfold alpha1
    rw [if_pos (List.takeWhile_cons_of_neg (by simp [ha]))]
  have h2 : tag ['_'] (c :: cs) = .err := by
    unfold tag
    rw [if_neg]
    intro hpre
    simp only [List.isPrefixOf, Bool.and_eq_true, beq_iff_eq] at hpre
    have : c = '_' := hpre.1.symm
    simp [this] at hu
  show pbind (por alpha1 (tag ['_']) (c :: cs)) _ = .err
  rw [(por_err h1).trans h2]
  rfl

/-- On empty input the inner combinator of `parse_variable` fails. -/
theorem identPair_nil : identPair [] = .err := rfl

/-- The slice-length arithmetic done by `recognize`: taking
`length - (remainder after dropWhile).length` characters is `takeWhile`. -/
theorem take_length_sub (q : Char → Bool) (l : List Char) :
    l.take (l.length - (l.dropWhile q).length) = l.takeWhile q := by
  have hlen : (l.takeWhile q).length + (l.dropWhile q).length = l.length := by
    rw [← List.length_append, List.takeWhile_append_dropWhile]
  have h1 : l.length - (l.dropWhile q).length = (l.takeWhile q).length := by omega
  rw [h1]
  exact (List.prefix_iff_eq_take.mp (List.takeWhile_prefix q)).symm

/-- Success case of `parse_variable`: on input starting with a letter or
underscore it returns the maximal `[A-Za-z0-9_]`-run as the identifier and
the rest of the input as remainder. -/
theorem parse_variable_ok {c : Char} (cs : List Char) (h : identStart c = true) :
    parse_variable (c :: cs) =
      .ok ⟨(c :: cs).takeWhile identChar⟩ ((c :: cs).dropWhile identChar) := by
  obtain ⟨k, hk⟩ := identPair_ok cs h
  show pbind (precognize identPair (c :: cs)) _ = _
  unfold precognize
  rw [hk]
  simp only [pbind_ok]
  rw [take_length_sub]

/-- Failure case of `parse_variable`: any other first character is rejected
with no input consumed. -/
theorem parse_variable_err_head {c : Char} (cs : List Char) (h : identStart c = false) :
    parse_variable (c :: cs) = .err := by
  show pbind (precognize identPair (c :: cs)) _ = .err
  unfold precognize
  rw [identPair_err cs h]
  rfl

/-- Failure of `parse_variable` on empty input. -/
theorem parse_variable_nil : parse_variable [] = .err := rfl

/-- C1: the claim states that the top-level parse function terminates on
every finite input and that parsing "x+y" yields `Add(Var(x), Var(y))`.
The code violates this: `parse_e_top` falls through to `parse_apply_1`,
which re-enters `parse_e_top` at the same input position, so on input
"x+y" the parser exhausts every fuel bound — it never returns any result,
let alone the claimed `Add` node. -/
theorem claim_C1 : ∀ n : Nat, parser n ['x','+','y'] = .fuel :=
  fun n => parse_e_top_fuel n _

/-- C2: the claim states that parsing "pred(E)" builds a `Pred` node and
that "succ(pred(3))" parses to `Succ(Pred(Num(3)))`.  The code violates
this twice: the whole parse of "succ(pred(3))" diverges (first conjunct),
and the `parse_pred` rule as written can only ever construct a `Succ`
node, never a `Pred` node (second conjunct, stated over an arbitrary
sub-expression parser since the rule's own sub-parse never returns). -/
theorem claim_C2 :
    (∀ n : Nat, parser n ['s','u','c','c','(','p','r','e','d','(','3',')',')'] = .fuel)
    ∧ (∀ (top : P Expression) (input : List Char) (e : Expression) (rem : List Char),
        parse_pred_f top input = .ok e rem → ∃ x, e = Expression.Succ x) := by
  constructor
  · exact fun n => parse_e_top_fuel n _
  · intro top input e rem h
    unfold parse_pred_f at h
    cases h1 : tag ['p','r','e','d'] input with
    | err => rw [h1] at h; simp only [pbind_err] at h; exact PRes.noConfusion h
    | fuel => rw [h1] at h; simp only [pbind_fuel] at h; exact PRes.noConfusion h
    | ok v1 r1 =>
      rw [h1] at h
      simp only [pbind_ok] at h
      cases h2 : tag ['('] r1 with
      | err => rw [h2] at h; simp only [pbind_err] at h; exact PRes.noConfusion h
      | fuel => rw [h2] at h; simp only [pbind_fuel] at h; exact PRes.noConfusion h
      | ok v2 r2 =>
        rw [h2] at h
        simp only [pbind_ok] at h
        cases h3 : top r2 with
        | err => rw [h3] at h; simp only [pbind_err] at h; exact PRes.noConfusion h
        | fuel => rw [h3] at h; simp only [pbind_fuel] at h; exact PRes.noConfusion h
        | ok e3 r3 =>
          rw [h3] at h
          simp only [pbind_ok] at h
          cases h4 : tag [')'] r3 with
          | err => rw [h4] at h; simp only [pbind_err] at h; exact PRes.noConfusion h
          | fuel => rw [h4] at h; simp only [pbind_fuel] at h; exact PRes.noConfusion h
          | ok v4 r4 =>
            rw [h4] at h
            simp only [pbind_ok] at h
            injection h with he hr
            exact ⟨e3, he.symm⟩

/-- C2 witness: a concrete run of the `pred` rule (with a stub
sub-expression parser) producing a `Succ` node, to which the theorem
applies. -/
theorem claim_C2_witness :
    parse_pred_f (fun i => .ok (Expression.Num 0) i) ['p','r','e','d','(',')'] =
      .ok (Expression.Succ (Expression.Num 0)) []
    ∧ ∃ x, Expression.Succ (Expression.Num 0) = Expression.Succ x :=
  ⟨rfl, claim_C2.2 (fun i => .ok (Expression.Num 0) i) ['p','r','e','d','(',')']
    (Expression.Succ (Expression.Num 0)) [] rfl⟩

/-- C3: the claim states that "a+b and c" parses to
`And(Add(Var(a),Var(b)), Var(c))` and that in "a::b==c" the cons binds
tighter than equality.  The code violates this: on both inputs the parser
exhausts every fuel bound (the infix rules parse their left operand with
the full top-level rule, which re-enters itself at the same position), so
neither input ever produces an AST. -/
theorem claim_C3 : ∀ n : Nat,
    parser n ['a','+','b',' ','a','n','d',' ','c'] = .fuel
    ∧ parser n ['a',':',':','b','=','=','c'] = .fuel :=
  fun n => ⟨parse_e_top_fuel n _, parse_e_top_fuel n _⟩

/-- C4: the claim states that numeral parsing wraps the maximal digit run
in a `Num` node and that "42" parses to `Num(42)`.  The code violates
this: the top-level parse of "42" exhausts every fuel bound (first
conjunct).  The spec-modelled `parse_num` (the source body returns the raw
`digit1` slice where an `Expression` is required and does not type-check)
does map "42" to `Num 42` with the maximal-digit-run behaviour (second
conjunct). -/
theorem claim_C4 :
    (∀ n : Nat, parser n ['4','2'] = .fuel)
    ∧ parse_num ['4','2'] = .ok (Expression.Num 42) [] :=
  ⟨fun n => parse_e_top_fuel n _, rfl⟩

/-- C5: the claim states that "true", "false" and "nil" parse to the
dedicated variants `True`, `False`, `Nil` and not to `Var`.  The code
violates this: in `parse_e_null` the identifier alternative is tried
first and each keyword is a valid identifier, so the atomic layer yields
`Var("true")`, `Var("false")`, `Var("nil")` (first three conjuncts); the
keyword rules themselves would produce the right nodes but are shadowed
(next two conjuncts); and the top-level parse of "true" diverges anyway
(last conjunct). -/
theorem claim_C5 : ∀ n : Nat,
    parse_e_null n ['t','r','u','e'] = .ok (Expression.Var ⟨['t','r','u','e']⟩) []
    ∧ parse_e_null n ['f','a','l','s','e'] = .ok (Expression.Var ⟨['f','a','l','s','e']⟩) []
    ∧ parse_e_null n ['n','i','l'] = .ok (Expression.Var ⟨['n','i','l']⟩) []
    ∧ parse_bool ['t','r','u','e'] = .ok Expression.True []
    ∧ parse_nil ['n','i','l'] = .ok Expression.Nil []
    ∧ parser n ['t','r','u','e'] = .fuel :=
  fun n => ⟨rfl, rfl, rfl, rfl, rfl, parse_e_top_fuel n _⟩

/-- C6: the claim states that "(a+b)" and "a+b" parse to structurally
identical expressions, differing only in remainder.  The code violates
this vacuously and fatally: on both inputs the parser exhausts every fuel
bound, so neither parse produces any `Expression` at all. -/
theorem claim_C6 : ∀ n : Nat,
    parser n ['(','a','+','b',')'] = .fuel
    ∧ parser n ['a','+','b'] = .fuel :=
  fun n => ⟨parse_e_top_fuel n _, parse_e_top_fuel n _⟩

/-- C7: for every layer and every input, when a non-final alternative
fails, no input is consumed and the next alternative (or the next lower
layer) is run on exactly the original input.  The first conjunct is the
general fact for the alternation combinator (every non-final alternative
of every layer is the head of a right-nested `por` chain); the remaining
conjuncts instantiate it for each layer of the ladder: bracket to zeroth,
apply-1 to apply-2, apply-2 to first, add to second, and to third, cons
to fourth, eq to fifth, fn to null, and the identifier alternative to the
rest of the atomic layer. -/
theorem claim_C7 :
    (∀ (α : Type) (p q : P α) (input : List Char), p input = .err → por p q input = q input)
    ∧ (∀ (n : Nat) (input : List Char), parse_e_top_bracket n input = .err →
        parse_e_top (n + 1) input = parse_e_zeroth n input)
    ∧ (∀ (n : Nat) (input : List Char), parse_apply_1 n input = .err →
        parse_e_zeroth n input = por (parse_apply_2 n) (parse_e_first n) input)
    ∧ (∀ (n : Nat) (input : List Char), parse_apply_2 n input = .err →
        por (parse_apply_2 n) (parse_e_first n) input = parse_e_first n input)
    ∧ (∀ (n : Nat) (input : List Char), parse_add n input = .err →
        parse_e_first n input = parse_e_second n input)
    ∧ (∀ (n : Nat) (input : List Char), parse_and n input = .err →
        parse_e_second n input = parse_e_third n input)
    ∧ (∀ (n : Nat) (input : List Char), parse_cons n input = .err →
        parse_e_third n input = parse_e_fourth n input)
    ∧ (∀ (n : Nat) (input : List Char), parse_eq n input = .err →
        parse_e_fourth n input = parse_e_fifth n input)
    ∧ (∀ (n : Nat) (input : List Char), parse_fn n input = .err →
        parse_e_fifth n input = parse_e_null n input)
    ∧ (∀ (n : Nat) (input : List Char), parse_e_variable input = .err →
        parse_e_null n input =
          por parse_bool (por parse_num (por (parse_let n) (por (parse_not n)
            (por (parse_if n) (por (parse_succ n) (por (parse_pair n)
              (por (parse_fst n) (por (parse_snd n) (por parse_nil
                (por (parse_hd n) (por (parse_tl n) (parse_pred n)))))))))))) input) := by
  refine ⟨?_, ?_, ?_, ?_, ?_, ?_, ?_, ?_, ?_, ?_⟩
  · intro α p q input h; exact por_err h
  · intro n input h; exact por_err h
  · intro n input h; exact por_err h
  · intro n input h; exact por_err h
  · intro n input h; exact por_err h
  · intro n input h; exact por_err h
  · intro n input h; exact por_err h
  · intro n input h; exact por_err h
  · intro n input h; exact por_err h
  · intro n input h; exact por_err h

/-- C7 witness: on input "x" the bracket rule fails (no opening
parenthesis), and the top layer indeed continues with `parse_e_zeroth` on
the original input. -/
theorem claim_C7_witness :
    parse_e_top_bracket 3 ['x'] = .err
    ∧ parse_e_top 4 ['x'] = parse_e_zeroth 3 ['x'] :=
  ⟨rfl, claim_C7.2.1 3 ['x'] rfl⟩

/-- C8: the claim states that when nesting exceeds a configured bound the
parser returns a distinct `DepthExceeded` error value rather than
overflowing the stack.  The code violates this: it has no depth bound and
no error taxonomy at all (its only error type is nom's generic one), and
on input "x" — indeed on every input — no finite call-depth allowance is
ever enough: the recursion re-enters itself at the same position, which
in the original overflows the call stack instead of returning any error
value. -/
theorem claim_C8 : ∀ n : Nat, parser n ['x'] = .fuel :=
  fun n => parse_e_top_fuel n _

/-- C9: the identifier rule accepts exactly the strings matching
`[A-Za-z_][A-Za-z0-9_]*`, consuming the maximal such prefix, and two
identifiers are equal iff their text is equal.  Confirmed: on input whose
first character is a letter or underscore, `parse_variable` returns the
maximal run of letters, digits and underscores as the identifier and
drops exactly that prefix; on any other first character, and on empty
input, it fails; and `Variable` equality is text equality. -/
theorem claim_C9 :
    (∀ (c : Char) (cs : List Char), identStart c = true →
      parse_variable (c :: cs) =
        .ok ⟨(c :: cs).takeWhile identChar⟩ ((c :: cs).dropWhile identChar))
    ∧ (∀ (c : Char) (cs : List Char), identStart c = false → parse_variable (c :: cs) = .err)
    ∧ parse_variable [] = .err
    ∧ (∀ v w : Variable, v = w ↔ v.ident = w.ident) := by
  refine ⟨?_, ?_, parse_variable_nil, ?_⟩
  · intro c cs h; exact parse_variable_ok cs h
  · intro c cs h; exact parse_variable_err_head cs h
  · intro v w
    constructor
    · intro h; rw [h]
    · intro h
      cases v
      cases w
      exact congrArg Variable.mk h

/-- C9 witness: the identifier rule on "ab1_+x" consumes exactly "ab1_"
and leaves "+x". -/
theorem claim_C9_witness :
    identStart 'a' = true
    ∧ parse_variable ['a','b','1','_','+','x'] = .ok ⟨['a','b','1','_']⟩ ['+','x'] :=
  ⟨rfl, claim_C9.1 'a' ['b','1','_','+','x'] rfl⟩

/-- C10: the claim states that the application layer tries the
parenthesized-argument form `E1 ( E2 )` (producing `Apply`) before
juxtaposition and that "f(x)" yields an `Apply` node.  The code violates
the behavioural part: the parse of "f(x)" exhausts every fuel bound
because `parse_apply_1` parses its left operand with the full top-level
rule (first conjunct).  The structural part holds: whenever the
`parse_apply_1` rule returns at all (stated over an arbitrary
sub-expression parser, since its own sub-parse never returns), its result
is an `Apply` node (second conjunct). -/
theorem claim_C10 :
    (∀ n : Nat, parser n ['f','(','x',')'] = .fuel)
    ∧ (∀ (top : P Expression) (input : List Char) (e : Expression) (rem : List Char),
        parse_apply_1_f top input = .ok e rem → ∃ a b, e = Expression.Apply a b) := by
  constructor
  · exact fun n => parse_e_top_fuel n _
  · intro top input e rem h
    unfold parse_apply_1_f at h
    cases h1 : top input with
    | err => rw [h1] at h; simp only [pbind_err] at h; exact PRes.noConfusion h
    | fuel => rw [h1] at h; simp only [pbind_fuel] at h; exact PRes.noConfusion h
    | ok e1 r1 =>
      rw [h1] at h
      simp only [pbind_ok] at h
      cases h2 : tag ['('] r1 with
      | err => rw [h2] at h; simp only [pbind_err] at h; exact PRes.noConfusion h
      | fuel => rw [h2] at h; simp only [pbind_fuel] at h; exact PRes.noConfusion h
      | ok v2 r2 =>
        rw [h2] at h
        simp only [pbind_ok] at h
        cases h3 : top r2 with
        | err => rw [h3] at h; simp only [pbind_err] at h; exact PRes.noConfusion h
        | fuel => rw [h3] at h; simp only [pbind_fuel] at h; exact PRes.noConfusion h
        | ok e2 r3 =>
          rw [h3] at h
          simp only [pbind_ok] at h
          cases h4 : tag [')'] r3 with
          | err => rw [h4] at h; simp only [pbind_err] at h; exact PRes.noConfusion h
          | fuel => rw [h4] at h; simp only [pbind_fuel] at h; exact PRes.noConfusion h
          | ok v4 r4 =>
            rw [h4] at h
            simp only [pbind_ok] at h
            injection h with he hr
            exact ⟨e1, e2, he.symm⟩

/-- C10 witness: a concrete run of the parenthesized-argument application
rule (with a stub sub-expression parser) producing an `Apply` node, to
which the theorem applies. -/
theorem claim_C10_witness :
    parse_apply_1_f (fun i => .ok (Expression.Num 0) (i.drop 1)) ['x','(','y',')'] =
      .ok (Expression.Apply (Expression.Num 0) (Expression.Num 0)) []
    ∧ ∃ a b, Expression.Apply (Expression.Num 0) (Expression.Num 0) = Expression.Apply a b :=
  ⟨rfl, claim_C10.2 (fun i => .ok (Expression.Num 0) (i.drop 1)) ['x','(','y',')']
    (Expression.Apply (Expression.Num 0) (Expression.Num 0)) [] rfl⟩
